import Mathlib

/-!
Verification development for the HotSpot `MethodComparator`
(src/hotspot/src/share/vm/prims/methodComparator.cpp).

The comparator decides, for an (old, new) method pair during class
redefinition, whether the two bodies are EMCP ("equivalent modulo constant
pool", `methods_EMCP`) or whether the new body is the old body with inserted
fragments only (`methods_switchable`), recording the fragments in a `BciMap`.

Shallow embedding choices:
  * A method body is the decoded instruction stream the `BytecodeStream`
    cursor delivers: a list of `(bci, instruction)` pairs, together with the
    summary attributes (`code_size`, `max_stack`, `max_locals`,
    `size_of_parameters`) read by the comparator.  The cursor itself is an
    external collaborator (bytecodeStream.hpp is not part of the sampled
    source); for a wide-prefixed instruction the cursor's `bci()`/`bcp()`
    denote the position of the `wide` prefix byte, and the raw-byte reads
    (`bcp()[k]`, `get_index_big`, `Bytes::get_Java_u4(bcp()+k)`) performed by
    `args_same` are computed here from the instruction's operand fields via
    the standard JVM encoding.
  * The constant pool oracle is a structure of total functions from raw
    indices to resolved identities (symbols are modelled as `String`s, whose
    equality coincides with the pointer equality of interned `symbolOop`s;
    float/double literal values are modelled as `Int` bit patterns compared by
    equality, which only differs from the C++ `jfloat`/`jdouble` comparison on
    NaN and signed-zero payloads, not exercised by any claim).
  * The `Instr.other` constructor carries opcodes that fall into the default
    case of the `args_same` switch (no operand comparison); opcodes with their
    own constructor are never encoded through `Instr.other`.
-/

namespace MethodComparator

/-- Constant pool tag kinds distinguished by `args_same` (constantTag).  The
`value` numbers are the JVM_CONSTANT_* values compared by `tag_old.value() !=
tag_new.value()`. -/
inductive CTag where
  | tInt
  | tFloat
  | tLong
  | tDouble
  | tKlass
  | tString
  | tUnresolvedKlass
  | tUnresolvedString
deriving DecidableEq, Repr

def CTag.value : CTag → Nat
  | .tInt => 3
  | .tFloat => 4
  | .tLong => 5
  | .tDouble => 6
  | .tKlass => 7
  | .tString => 8
  | .tUnresolvedKlass => 100
  | .tUnresolvedString => 102

def CTag.is_int (t : CTag) : Bool := t == .tInt

def CTag.is_float (t : CTag) : Bool := t == .tFloat

def CTag.is_long (t : CTag) : Bool := t == .tLong

def CTag.is_klass (t : CTag) : Bool := t == .tKlass

def CTag.is_unresolved_klass (t : CTag) : Bool := t == .tUnresolvedKlass

def CTag.is_string (t : CTag) : Bool := t == .tString

def CTag.is_unresolved_string (t : CTag) : Bool := t == .tUnresolvedString

/-- Constant pool oracle (constantPoolOop): resolves raw operand indices to
semantic identities.  `klass_ref_at_noresolve`, `name_ref_at` and
`signature_ref_at` accept constant-pool-cache indices, as in the source. -/
structure CPool where
  tag_at : Nat → CTag
  int_at : Nat → Int
  float_at : Nat → Int
  long_at : Nat → Int
  double_at : Nat → Int
  string_at_noresolve : Nat → String
  klass_at_noresolve : Nat → String
  klass_ref_at_noresolve : Nat → String
  name_ref_at : Nat → String
  signature_ref_at : Nat → String

/-- Class-reference opcodes sharing the first `args_same` case (besides
`multianewarray`, which has its own constructor for the extra dims byte). -/
inductive ClassOp where
  | newOp
  | anewarray
  | checkcast
  | instanceofOp
deriving DecidableEq, Repr

def ClassOp.opcode : ClassOp → Nat
  | .newOp => 187
  | .anewarray => 189
  | .checkcast => 192
  | .instanceofOp => 193

/-- Field/method reference opcodes (second `args_same` case). -/
inductive MemberOp where
  | getstatic
  | putstatic
  | getfield
  | putfield
  | invokevirtual
  | invokespecial
  | invokestatic
  | invokeinterface
deriving DecidableEq, Repr

def MemberOp.opcode : MemberOp → Nat
  | .getstatic => 178
  | .putstatic => 179
  | .getfield => 180
  | .putfield => 181
  | .invokevirtual => 182
  | .invokespecial => 183
  | .invokestatic => 184
  | .invokeinterface => 185

/-- Local-variable opcodes (load/store/ret case of `args_same`). -/
inductive LocalOp where
  | aload
  | astore
  | dload
  | dstore
  | fload
  | fstore
  | iload
  | istore
  | lload
  | lstore
  | ret
deriving DecidableEq, Repr

def LocalOp.opcode : LocalOp → Nat
  | .aload => 25
  | .astore => 58
  | .dload => 24
  | .dstore => 57
  | .fload => 23
  | .fstore => 56
  | .iload => 21
  | .istore => 54
  | .lload => 22
  | .lstore => 55
  | .ret => 169

/-- Branch opcodes with a signed 16-bit offset (goto / if_* / jsr case). -/
inductive BranchOp where
  | gotoOp
  | if_acmpeq
  | if_acmpne
  | if_icmpeq
  | if_icmpne
  | if_icmplt
  | if_icmpge
  | if_icmpgt
  | if_icmple
  | ifeq
  | ifne
  | iflt
  | ifge
  | ifgt
  | ifle
  | ifnonnull
  | ifnull
  | jsr
deriving DecidableEq, Repr

def BranchOp.opcode : BranchOp → Nat
  | .gotoOp => 167
  | .if_acmpeq => 165
  | .if_acmpne => 166
  | .if_icmpeq => 159
  | .if_icmpne => 160
  | .if_icmplt => 161
  | .if_icmpge => 162
  | .if_icmpgt => 163
  | .if_icmple => 164
  | .ifeq => 153
  | .ifne => 154
  | .iflt => 155
  | .ifge => 156
  | .ifgt => 157
  | .ifle => 158
  | .ifnonnull => 199
  | .ifnull => 198
  | .jsr => 168

/-- Branch opcodes with a signed 32-bit offset (goto_w / jsr_w case). -/
inductive WideBranchOp where
  | gotoW
  | jsrW
deriving DecidableEq, Repr

def WideBranchOp.opcode : WideBranchOp → Nat
  | .gotoW => 200
  | .jsrW => 201

/-- A decoded instruction as delivered by the cursor.  Operand fields hold the
decoded operand values; for `iinc` the fields hold the raw index/increment
operands (u1 each when not wide-prefixed, u2 each when wide-prefixed), from
which the raw-byte comparisons of `args_same` are computed. -/
inductive Instr where
  | classOp (op : ClassOp) (cpi : Nat)
  | multianewarray (cpi : Nat) (dims : Nat)
  | memberOp (op : MemberOp) (cpci : Nat)
  | ldc (cpi : Nat)
  | ldcW (cpi : Nat)
  | ldc2W (cpi : Nat)
  | bipush (b : Nat)
  | sipush (v : Nat)
  | localOp (op : LocalOp) (wide : Bool) (idx : Nat)
  | branch (op : BranchOp) (ofs : Int)
  | wideBranch (op : WideBranchOp) (ofs : Int)
  | iinc (wide : Bool) (idx : Nat) (incr : Nat)
  | lookupswitch (ldefault : Int) (pairs : List (Int × Int))
  | tableswitch (tdefault : Int) (lo : Int) (hi : Int) (offsets : List Int)
  | other (op : Nat)
deriving DecidableEq, Repr

/-- The standard Java opcode of an instruction, as returned (after
normalization of "fast" variants) by `BytecodeStream::next()`.  `wide` is a
prefix, not part of the returned code, so wide and non-wide forms of the same
operation share one opcode. -/
def Instr.opcode : Instr → Nat
  | .classOp op _ => op.opcode
  | .multianewarray _ _ => 197
  | .memberOp op _ => op.opcode
  | .ldc _ => 18
  | .ldcW _ => 19
  | .ldc2W _ => 20
  | .bipush _ => 16
  | .sipush _ => 17
  | .localOp op _ _ => op.opcode
  | .branch op _ => op.opcode
  | .wideBranch op _ => op.opcode
  | .iinc _ _ _ => 132
  | .lookupswitch _ _ => 171
  | .tableswitch _ _ _ _ => 170
  | .other op => op

/-- Opcode equality, the `c_old == c_new` test of both scan loops. -/
def sameOpcode (a b : Instr) : Bool := a.opcode == b.opcode

/-- A method body as borrowed by the comparator: decoded instruction stream
plus the summary attributes it reads. -/
structure Method where
  code : List (Nat × Instr)
  code_size : Nat
  max_stack : Nat
  max_locals : Nat
  size_of_parameters : Nat
  cp : CPool

/-- One inserted fragment recorded by `store_fragment_location`:
`(old_divergence_bci, new_fragment_start, new_fragment_end)`. -/
structure Frag where
  oldBci : Nat
  newStBci : Nat
  newEndBci : Nat
deriving DecidableEq, Repr

/-- Modelled from the spec: the `BciMap` translation (methodComparator.hpp is
not part of the sampled source).  `translate(old_bci)` adds to `old_bci` the
inserted lengths of every fragment whose divergence point precedes it; a jump
landing exactly on a divergence point follows the recommended end-of-preceding-
span convention, so fragments with `oldBci ≤ old_bci` are counted. -/
def new_bci_for_old (bm : List Frag) (oldB : Int) : Int :=
  oldB + (bm.filter (fun f => (f.oldBci : Int) ≤ oldB)).foldr
    (fun f a => a + ((f.newEndBci : Int) - (f.newStBci : Int))) 0

/-- Modelled from the spec: `same_location(old_bci, new_bci)` holds iff
`translate(old_bci) == new_bci`. -/
def old_and_new_locations_same (bm : List Frag) (oldB newB : Int) : Bool :=
  new_bci_for_old bm oldB == newB

/-- Diagnosis of the frame-layout precondition: 0 = ok, 1 = max-stack
mismatch, 2 = max-locals mismatch, 3 = parameter-size mismatch. -/
def check_stack_and_locals_size (oldM newM : Method) : Nat :=
  if oldM.max_stack != newM.max_stack then 1
  else if oldM.max_locals != newM.max_locals then 2
  else if oldM.size_of_parameters != newM.size_of_parameters then 3
  else 0

/-- The ldc/ldc_w operand comparison: tag family, then literal value, string
content, or class identity; resolved and unresolved string/class entries of
the same target are equivalent. -/
def ldcSame (cpO cpN : CPool) (ci cj : Nat) : Bool :=
  let tO := cpO.tag_at ci
  let tN := cpN.tag_at cj
  if tO.is_int || tO.is_float then
    if tO.value != tN.value then false
    else if tO.is_int then cpO.int_at ci == cpN.int_at cj
    else cpO.float_at ci == cpN.float_at cj
  else if tO.is_string || tO.is_unresolved_string then
    if !(tN.is_unresolved_string || tN.is_string) then false
    else cpO.string_at_noresolve ci == cpN.string_at_noresolve cj
  else
    if !(tN.is_unresolved_klass || tN.is_klass) then false
    else cpO.klass_at_noresolve ci == cpN.klass_at_noresolve cj

/-- The ldc2_w operand comparison (long / double literals). -/
def ldc2Same (cpO cpN : CPool) (ci cj : Nat) : Bool :=
  let tO := cpO.tag_at ci
  let tN := cpN.tag_at cj
  if tO.value != tN.value then false
  else if tO.is_long then cpO.long_at ci == cpN.long_at cj
  else cpO.double_at ci == cpN.double_at cj

/-- Raw comparison word for a non-wide `iinc`: the encoding is
`[0x84, idx, incr]` and `get_index_big()` reads the big-endian u2 at
`bcp()+1`, i.e. both operand bytes at once. -/
def iincU2 (idx incr : Nat) : Nat := idx % 256 * 256 + incr % 256

/-- Raw comparison word for a wide `iinc`: the encoding is
`[0xc4, 0x84, idxHi, idxLo, incrHi, incrLo]` with `bcp()` at the `0xc4` wide
prefix, and `Bytes::get_Java_u4(bcp()+1)` reads the big-endian u4 of bytes
1..4, i.e. `[0x84, idxHi, idxLo, incrHi]` — the low increment byte at offset 5
is not covered by the read. -/
def wideIincU4 (idx incr : Nat) : Nat :=
  132 * 16777216 + idx % 65536 * 256 + incr % 65536 / 256

/-- The `iinc` operand comparison of `args_same`. -/
def iincSame (w1 : Bool) (i1 c1 : Nat) (w2 : Bool) (i2 c2 : Nat) : Bool :=
  if w1 != w2 then false
  else if !w1 then iincU2 i1 c1 == iincU2 i2 c2
  else wideIincU4 i1 c1 == wideIincU4 i2 c2

/-- Shared branch-offset rule for 16-bit branches and goto_w/jsr_w.  In
switchable mode it returns the verdict together with the (old_dest, new_dest)
pairs appended to the pending forward-jump list. -/
def branchSame (sw : Bool) (bm : List Frag) (bciO bciN : Nat) (oOld oNew : Int) :
    Bool × List (Int × Int) :=
  if sw then
    let dOld : Int := bciO + oOld
    let dNew : Int := bciN + oNew
    if oOld < 0 && oNew < 0 then
      (old_and_new_locations_same bm dOld dNew, [])
    else if oOld > 0 && oNew > 0 then
      (true, [(dOld, dNew)])
    else
      (false, [])
  else
    (oOld == oNew, [])

/-- The lookupswitch match-pair walk in switchable mode: match values must be
pairwise equal; each visited pair's targets are appended before the next
comparison, so appends from iterations preceding a failure persist. -/
def lsPairs (bciO bciN : Nat) :
    List (Int × Int) → List (Int × Int) → List (Int × Int) → Bool × List (Int × Int)
  | (m1, o1) :: t1, (m2, o2) :: t2, acc =>
    if m1 != m2 then (false, acc)
    else lsPairs bciO bciN t1 t2 (acc ++ [((bciO : Int) + o1, (bciN : Int) + o2)])
  | _, _, acc => (true, acc)

/-- Big-endian byte quads of a 32-bit two's-complement value, used for the
exact-mode byte-for-byte switch comparison. -/
def u4bytes (v : Int) : List Nat :=
  let n := (v % 4294967296).toNat
  [n / 16777216 % 256, n / 65536 % 256, n / 256 % 256, n % 256]

/-- Padding length after a switch opcode at the given bci: `round_to(bci+1, 4)`
minus `bci+1`.  Padding bytes are zero in well-formed class files. -/
def switchPad (bci : Nat) : Nat := (4 - (bci + 1) % 4) % 4

/-- Encoded bytes of a lookupswitch instruction at the given bci (exact mode
compares `next_bcp - bcp` lengths and then the bytes with memcmp). -/
def lsBytes (bci : Nat) (d : Int) (ps : List (Int × Int)) : List Nat :=
  171 :: (List.replicate (switchPad bci) 0 ++ u4bytes d ++ u4bytes ps.length ++
    ps.flatMap (fun p => u4bytes p.1 ++ u4bytes p.2))

/-- Encoded bytes of a tableswitch instruction at the given bci. -/
def tsBytes (bci : Nat) (d lo hi : Int) (offs : List Int) : List Nat :=
  170 :: (List.replicate (switchPad bci) 0 ++ u4bytes d ++ u4bytes lo ++ u4bytes hi ++
    offs.flatMap u4bytes)

/-- Per-opcode argument-equivalence rules (`MethodComparator::args_same`),
returning the verdict together with the (old_dest, new_dest) pairs appended to
the pending forward-jump list during the call (always empty in exact mode).
`args_same` is invoked only on opcode-equal instructions; pairs of distinct
constructors fall into the default case, as do opcodes outside the switch. -/
def args_same (sw : Bool) (cpO cpN : CPool) (bm : List Frag) (bciO bciN : Nat) :
    Instr → Instr → Bool × List (Int × Int)
  | .classOp _ ci, .classOp _ cj =>
    (cpO.klass_at_noresolve ci == cpN.klass_at_noresolve cj, [])
  | .multianewarray ci d1, .multianewarray cj d2 =>
    (cpO.klass_at_noresolve ci == cpN.klass_at_noresolve cj && d1 % 256 == d2 % 256, [])
  | .memberOp _ ci, .memberOp _ cj =>
    (cpO.klass_ref_at_noresolve ci == cpN.klass_ref_at_noresolve cj &&
     cpO.name_ref_at ci == cpN.name_ref_at cj &&
     cpO.signature_ref_at ci == cpN.signature_ref_at cj, [])
  | .ldc ci, .ldc cj => (ldcSame cpO cpN ci cj, [])
  | .ldcW ci, .ldcW cj => (ldcSame cpO cpN ci cj, [])
  | .ldc2W ci, .ldc2W cj => (ldc2Same cpO cpN ci cj, [])
  | .bipush a, .bipush b => (a % 256 == b % 256, [])
  | .sipush a, .sipush b => (a % 65536 == b % 65536, [])
  | .localOp _ w1 i1, .localOp _ w2 i2 => (w1 == w2 && i1 == i2, [])
  | .branch _ o1, .branch _ o2 => branchSame sw bm bciO bciN o1 o2
  | .wideBranch _ o1, .wideBranch _ o2 => branchSame sw bm bciO bciN o1 o2
  | .iinc w1 i1 c1, .iinc w2 i2 c2 => (iincSame w1 i1 c1 w2 i2 c2, [])
  | .lookupswitch d1 p1, .lookupswitch d2 p2 =>
    if sw then
      let acc0 : List (Int × Int) := [((bciO : Int) + d1, (bciN : Int) + d2)]
      if p1.length != p2.length then (false, acc0)
      else lsPairs bciO bciN p1 p2 acc0
    else
      (lsBytes bciO d1 p1 == lsBytes bciN d2 p2, [])
  | .tableswitch d1 lo1 hi1 offs1, .tableswitch d2 lo2 hi2 offs2 =>
    if sw then
      let acc0 : List (Int × Int) := [((bciO : Int) + d1, (bciN : Int) + d2)]
      if lo1 != lo2 then (false, acc0)
      else if hi1 != hi2 then (false, acc0)
      else
        (true, acc0 ++ ((offs1.zip offs2).take (hi1 - lo1 + 1).toNat).map
          (fun p => ((bciO : Int) + p.1, (bciN : Int) + p.2)))
    else
      (tsBytes bciO d1 lo1 hi1 offs1 == tsBytes bciN d2 lo2 hi2 offs2, [])
  | _, _ => (true, [])

/-- The exact-mode lockstep loop of `methods_EMCP`: opcodes must be identical
at every step and the argument rule must hold; the new stream ending first is
a failure, and the loop returns true when the old stream is exhausted. -/
def emcpLoop (cpO cpN : CPool) : List (Nat × Instr) → List (Nat × Instr) → Bool
  | [], _ => true
  | _ :: _, [] => false
  | (bo, io) :: tlO, (bn, iN) :: tn =>
    if sameOpcode io iN && (args_same false cpO cpN [] bo bn io iN).1 then
      emcpLoop cpO cpN tlO tn
    else
      false

/-- `MethodComparator::methods_EMCP`: code sizes must be equal, frame layout
must match, then the lockstep scan runs in exact mode. -/
def methods_EMCP (oldM newM : Method) : Bool :=
  if oldM.code_size != newM.code_size then false
  else if check_stack_and_locals_size oldM newM != 0 then false
  else emcpLoop oldM.cp newM.cp oldM.code newM.code

/-- The resynchronization search of `methods_switchable`: advance only the new
stream until an instruction opcode-equal and argument-equal to the frozen old
instruction is found.  Returns the matched bci and the stream remainder (none
if the new stream ends first) together with the forward-jump list, which keeps
pairs appended by failed candidate comparisons. -/
def resyncLoop (cpO cpN : CPool) (bm : List Frag) (bo : Nat) (io : Instr) :
    List (Nat × Instr) → List (Int × Int) →
    Option (Nat × List (Nat × Instr)) × List (Int × Int)
  | [], fwd => (none, fwd)
  | (bn, iN) :: tn, fwd =>
    if sameOpcode io iN then
      if (args_same true cpO cpN bm bo bn io iN).1 then
        (some (bn, tn), fwd ++ (args_same true cpO cpN bm bo bn io iN).2)
      else
        resyncLoop cpO cpN bm bo io tn (fwd ++ (args_same true cpO cpN bm bo bn io iN).2)
    else
      resyncLoop cpO cpN bm bo io tn fwd

/-- One lockstep comparison of the switchable scan, the condition
`c_old == c_new && args_same(c_old, c_new)` together with the pairs it appends
to the pending forward-jump list (none when the opcodes already differ, since
`&&` short-circuits). -/
def scanStep (cpO cpN : CPool) (bm : List Frag) (bo bn : Nat) (io iN : Instr) :
    Bool × List (Int × Int) :=
  if sameOpcode io iN then args_same true cpO cpN bm bo bn io iN else (false, [])

/-- The switchable-mode scan of `methods_switchable`: lockstep while opcodes
and arguments agree; on disagreement resynchronize forward in the new stream
and record the fragment; the result carries the final verdict, the recorded
fragments, and the accumulated pending forward jumps. -/
def scanLoop (cpO cpN : CPool) :
    List (Nat × Instr) → List (Nat × Instr) → List Frag → List (Int × Int) →
    Bool × List Frag × List (Int × Int)
  | [], _, bm, fwd => (true, bm, fwd)
  | _ :: _, [], bm, fwd => (false, bm, fwd)
  | (bo, io) :: tlO, (bn, iN) :: tn, bm, fwd =>
    if (scanStep cpO cpN bm bo bn io iN).1 then
      scanLoop cpO cpN tlO tn bm (fwd ++ (scanStep cpO cpN bm bo bn io iN).2)
    else
      match resyncLoop cpO cpN bm bo io tn
          (fwd ++ (scanStep cpO cpN bm bo bn io iN).2) with
      | (none, fwd2) => (false, bm, fwd2)
      | (some (bn2, tn2), fwd2) =>
        scanLoop cpO cpN tlO tn2 (bm ++ [⟨bo, bn, bn2⟩]) fwd2

/-- `MethodComparator::methods_switchable`: the length precondition, the
(inverted, see below) frame-layout precondition, the fragment-tolerant scan,
and the deferred validation of the pending forward jumps against the final
map.  The source tests `! check_stack_and_locals_size(old, new)`, which is
true exactly when the diagnosis is 0, i.e. when the frame layouts MATCH; the
scan therefore only runs when max-stack, max-locals or parameter sizes
differ.  The returned fragment list is the out-parameter `bci_map` content at
return (fragments recorded before a failure are kept, as in the source). -/
def methods_switchable (oldM newM : Method) : Bool × List Frag :=
  if oldM.code_size > newM.code_size then (false, [])
  else if check_stack_and_locals_size oldM newM == 0 then (false, [])
  else
    match scanLoop oldM.cp newM.cp oldM.code newM.code [] [] with
    | (false, bm, _) => (false, bm)
    | (true, bm, fwd) =>
      (fwd.all (fun p => old_and_new_locations_same bm p.1 p.2), bm)

/-! Concrete bodies for the spec's scenario (section 8): `iconst_1` (opcode 4),
`iconst_2` (opcode 5), `nop` (opcode 0) and `ireturn` (opcode 172) take no
comparator-relevant operands, so they are carried by `Instr.other`. -/

/-- A constant pool with arbitrary fixed content, for bodies whose
instructions never consult the pool. -/
def cp0 : CPool where
  tag_at := fun _ => .tInt
  int_at := fun _ => 0
  float_at := fun _ => 0
  long_at := fun _ => 0
  double_at := fun _ => 0
  string_at_noresolve := fun _ => ""
  klass_at_noresolve := fun _ => ""
  klass_ref_at_noresolve := fun _ => ""
  name_ref_at := fun _ => ""
  signature_ref_at := fun _ => ""

/-- Body A = [iconst_1, ireturn] of the concrete scenario. -/
def methodA : Method :=
  ⟨[(0, .other 4), (1, .other 172)], 2, 1, 1, 1, cp0⟩

/-- Body B = [iconst_1, ireturn], a structurally identical copy of A. -/
def methodB : Method :=
  ⟨[(0, .other 4), (1, .other 172)], 2, 1, 1, 1, cp0⟩

/-- Body B1 = [iconst_1, nop, ireturn]: A with a nop inserted at bci 1. -/
def methodB1 : Method :=
  ⟨[(0, .other 4), (1, .other 0), (2, .other 172)], 3, 1, 1, 1, cp0⟩

/-- Body B2 = [iconst_2, ireturn]: A with its first instruction changed. -/
def methodB2 : Method :=
  ⟨[(0, .other 5), (1, .other 172)], 2, 1, 1, 1, cp0⟩

/-- Body [iconst_1, ireturn] with max_stack 2: frame layout differs from A. -/
def methodAStack2 : Method :=
  ⟨[(0, .other 4), (1, .other 172)], 2, 2, 1, 1, cp0⟩

/-- Body [iconst_1, nop, ireturn] with max_stack 2. -/
def methodB1Stack2 : Method :=
  ⟨[(0, .other 4), (1, .other 0), (2, .other 172)], 3, 2, 1, 1, cp0⟩

/-- Body [ireturn] alone, shorter than A. -/
def methodShort : Method :=
  ⟨[(0, .other 172)], 1, 1, 1, 1, cp0⟩

/-- Body [iconst_1, ireturn] followed by arbitrary trailing instructions, with
max_stack 2 and a given code size. -/
def trailingNew (cs : Nat) (junk : List (Nat × Instr)) : Method :=
  ⟨methodA.code ++ junk, cs, 2, 1, 1, cp0⟩

/-- Pool for the ldc literal cases: index 1 is an int entry of value 5, other
indices are an unresolved string entry with content "x". -/
def cp8a : CPool :=
  { cp0 with
    tag_at := fun n => if n == 1 then .tInt else .tUnresolvedString
    int_at := fun _ => 5
    string_at_noresolve := fun _ => "x" }

/-- Pool for the ldc literal cases: index 1 is an int entry of value 6, other
indices are a resolved string entry with content "x". -/
def cp8b : CPool :=
  { cp0 with
    tag_at := fun n => if n == 1 then .tInt else .tString
    int_at := fun _ => 6
    string_at_noresolve := fun _ => "x" }

/-- Pool exercising several operand families for the reflexivity witness. -/
def cpR : CPool :=
  { cp0 with
    tag_at := fun n => if n == 1 then .tInt else if n == 2 then .tUnresolvedString else .tKlass
    int_at := fun _ => 5
    string_at_noresolve := fun _ => "x"
    klass_at_noresolve := fun _ => "Foo"
    klass_ref_at_noresolve := fun _ => "Foo"
    name_ref_at := fun _ => "bar"
    signature_ref_at := fun _ => "()V" }

/-- Body exercising ldc, a member reference, a backward branch, iinc, a local
load and a plain opcode, used as a reflexivity witness. -/
def methodRich : Method :=
  ⟨[(0, .ldc 1), (2, .memberOp .invokevirtual 3), (5, .branch .gotoOp (-5)),
    (8, .iinc false 1 1), (11, .localOp .iload false 2), (13, .other 172)],
   14, 3, 3, 1, cpR⟩

/-- Side condition for exact-mode reflexivity: an `ldc`/`ldc_w` operand whose
tag is long or double falls into the class-literal branch of the comparison,
which then requires a class tag on the right-hand side and fails even against
an identical entry.  Such an operand is malformed bytecode (`ldc` cannot push
a two-word constant), and the comparator trusts verified streams. -/
def ldcReflOk (cp : CPool) : Instr → Bool
  | .ldc ci => decide (cp.tag_at ci ≠ .tLong ∧ cp.tag_at ci ≠ .tDouble)
  | .ldcW ci => decide (cp.tag_at ci ≠ .tLong ∧ cp.tag_at ci ≠ .tDouble)
  | _ => true

/-- Strictly increasing bcis, the shape of any decoded instruction stream. -/
abbrev BciMono (l : List (Nat × Instr)) : Prop :=
  l.Pairwise (fun a b => a.1 < b.1)

/-- Well-formedness of a recorded fragment list: every inserted span is
non-empty, divergence bcis are strictly increasing across the list, and the
new-stream spans are pairwise disjoint and increasing. -/
abbrev FragsWF (l : List Frag) : Prop :=
  (∀ f ∈ l, f.newStBci < f.newEndBci) ∧
  l.Pairwise (fun f g => f.oldBci < g.oldBci ∧ f.newEndBci ≤ g.newStBci)

/-- C1: the claim says `methods_switchable` returns false whenever max-stack,
max-locals or parameter sizes differ, and proceeds to the scan when all three
are equal.  The code tests `! check_stack_and_locals_size(old, new)`, which
INVERTS the intended precondition: for identical bodies differing only in
max_stack (diagnosis 1) the scan proceeds and the result is true, while for
a pair with matching frame layout (diagnosis 0) the function returns false
before scanning.  The sibling `methods_EMCP` uses the correct `!= 0` test. -/
theorem c1_precondition_inverted :
    check_stack_and_locals_size methodA methodAStack2 = 1 ∧
    (methods_switchable methodA methodAStack2).1 = true ∧
    check_stack_and_locals_size methodA methodB = 0 ∧
    methodA.code_size ≤ methodB.code_size ∧
    (methods_switchable methodA methodB).1 = false := by decide

/-- C2: evaluation of the concrete scenario on the code as written.  The two
EMCP verdicts and the B2 = [iconst_2, ireturn] switchable verdict are as the
claim states, but switchable(A, B1) is false with no fragment recorded: the
inverted frame-layout precondition of `methods_switchable` rejects the pair
(whose attributes all match) before the scan.  The last conjunct shows that
when the scan is reached (identical bodies except max_stack, which the
inverted test lets through) it records exactly the predicted fragment, old
bci 1 mapped to the new range [1, 2). -/
theorem c2_concrete_scenario :
    methods_EMCP methodA methodB = true ∧
    methods_EMCP methodA methodB1 = false ∧
    methods_switchable methodA methodB1 = (false, []) ∧
    methods_EMCP methodA methodB2 = false ∧
    methods_switchable methodA methodB2 = (false, []) ∧
    methods_switchable methodA methodB1Stack2 = (true, [⟨1, 1, 2⟩]) := by decide

/-- C3: the claim says is_EMCP(A,B) implies is_switchable(A,B) with an empty
map.  On the code as written the implication fails at every EMCP pair: EMCP
requires diagnosis 0 from `check_stack_and_locals_size`, and the inverted
precondition of `methods_switchable` then returns false immediately.
Evaluated here at A = B = [iconst_1, ireturn]. -/
theorem c3_exact_implies_switchable_fails :
    methods_EMCP methodA methodB = true ∧
    (methods_switchable methodA methodB).1 = false := by decide

/-- C4 counterexample: the claim says that when both signed offsets are ≤ 0
the two targets are validated against the PositionMap, with success when they
denote the same logical location.  For two goto instructions at bci 5 with
offset 0 on both sides the targets (5 and 5) do denote the same location in
the empty map, yet `args_same` returns false: the code tests `old_ofs < 0 &&
new_ofs < 0` strictly, and a zero offset falls into the failing else arm. -/
theorem c4_zero_offset_counterexample :
    old_and_new_locations_same [] 5 5 = true ∧
    args_same true cp0 cp0 [] 5 5 (.branch .gotoOp 0) (.branch .gotoOp 0)
      = (false, []) := by decide

/-- C4 amended: for every pair of branch instructions (goto, if_*, jsr and
goto_w, jsr_w) in switchable mode, if both signed offsets are strictly
negative the absolute targets are validated immediately against the
PositionMap; if both are strictly positive the target pair is appended to the
pending forward-jump list; otherwise — sign mismatch or a zero offset on
either side — the comparison fails immediately.  In exact mode the raw signed
offsets must be identical and nothing is appended. -/
theorem c4_branch_offset_rules (op : BranchOp) (wop : WideBranchOp)
    (cpO cpN : CPool) (bm : List Frag) (bo bn : Nat) (o1 o2 : Int) :
    (args_same true cpO cpN bm bo bn (.branch op o1) (.branch op o2) =
      if o1 < 0 ∧ o2 < 0 then
        (old_and_new_locations_same bm ((bo : Int) + o1) ((bn : Int) + o2), [])
      else if 0 < o1 ∧ 0 < o2 then (true, [((bo : Int) + o1, (bn : Int) + o2)])
      else (false, [])) ∧
    (args_same true cpO cpN bm bo bn (.wideBranch wop o1) (.wideBranch wop o2) =
      if o1 < 0 ∧ o2 < 0 then
        (old_and_new_locations_same bm ((bo : Int) + o1) ((bn : Int) + o2), [])
      else if 0 < o1 ∧ 0 < o2 then (true, [((bo : Int) + o1, (bn : Int) + o2)])
      else (false, [])) ∧
    (args_same false cpO cpN bm bo bn (.branch op o1) (.branch op o2) =
      ((o1 == o2), [])) ∧
    (args_same false cpO cpN bm bo bn (.wideBranch wop o1) (.wideBranch wop o2) =
      ((o1 == o2), [])) := by
  refine ⟨?_, ?_, ?_, ?_⟩ <;>
    simp only [args_same, branchSame] <;>
    first
    | rfl
    | (by_cases h1 : o1 < 0 <;> by_cases h2 : o2 < 0 <;>
        by_cases h3 : 0 < o1 <;> by_cases h4 : 0 < o2 <;>
        simp [h1, h2, h3, h4])

/-- C5: the claim says two wide-prefixed iinc instructions with equal slot
indices but different 16-bit increments are not equivalent.  The code reads
`Bytes::get_Java_u4(bcp() + 1)` with `bcp()` at the wide prefix, so the four
compared bytes are the iinc opcode, both index bytes and only the HIGH
increment byte: wide increments 256 and 257 (same index) compare as equal.
High-byte differences (256 vs 512) and the non-wide form (whose two operand
bytes are both covered by `get_index_big`) are detected as the claim says. -/
theorem c5_wide_iinc_low_byte_ignored :
    args_same false cp0 cp0 [] 0 0 (.iinc true 3 256) (.iinc true 3 257)
      = (true, []) ∧
    (256 : Nat) ≠ 257 ∧
    args_same false cp0 cp0 [] 0 0 (.iinc true 3 256) (.iinc true 3 512)
      = (false, []) ∧
    args_same false cp0 cp0 [] 0 0 (.iinc false 3 5) (.iinc false 3 6)
      = (false, []) ∧
    args_same false cp0 cp0 [] 0 0 (.iinc false 3 5) (.iinc true 3 5)
      = (false, []) := by decide

/-- Helper: the ldc comparison is reflexive for entry tags that `ldc` can
legally carry (everything but long/double). -/
theorem ldcSame_refl (cp : CPool) (ci : Nat)
    (h1 : cp.tag_at ci ≠ .tLong) (h2 : cp.tag_at ci ≠ .tDouble) :
    ldcSame cp cp ci ci = true := by
  unfold ldcSame
  cases h : cp.tag_at ci <;>
    simp_all [CTag.is_int, CTag.is_float, CTag.is_string,
      CTag.is_unresolved_string, CTag.is_klass, CTag.is_unresolved_klass,
      CTag.value]

/-- Helper: every exact-mode argument rule is reflexive (at one bci, against
the same pool), given the ldc tag side condition. -/
theorem args_same_refl (cp : CPool) (b : Nat) :
    ∀ i : Instr, ldcReflOk cp i = true →
      (args_same false cp cp [] b b i i).1 = true
  | .classOp _ _, _ => by simp [args_same]
  | .multianewarray _ _, _ => by simp [args_same]
  | .memberOp _ _, _ => by simp [args_same]
  | .ldc ci, h => by
    simp only [ldcReflOk, decide_eq_true_eq] at h
    simp [args_same, ldcSame_refl cp ci h.1 h.2]
  | .ldcW ci, h => by
    simp only [ldcReflOk, decide_eq_true_eq] at h
    simp [args_same, ldcSame_refl cp ci h.1 h.2]
  | .ldc2W _, _ => by simp [args_same, ldc2Same]
  | .bipush _, _ => by simp [args_same]
  | .sipush _, _ => by simp [args_same]
  | .localOp _ _ _, _ => by simp [args_same]
  | .branch _ _, _ => by simp [args_same, branchSame]
  | .wideBranch _ _, _ => by simp [args_same, branchSame]
  | .iinc _ _ _, _ => by simp [args_same, iincSame]
  | .lookupswitch _ _, _ => by simp [args_same]
  | .tableswitch _ _ _ _, _ => by simp [args_same]
  | .other _, _ => by simp [args_same]

/-- Helper: the exact-mode lockstep loop accepts any stream against itself. -/
theorem emcpLoop_refl (cp : CPool) :
    ∀ l : List (Nat × Instr), (∀ p ∈ l, ldcReflOk cp p.2 = true) →
      emcpLoop cp cp l l = true
  | [], _ => rfl
  | (b, i) :: t, h => by
    rw [emcpLoop]
    have hs : sameOpcode i i = true := by simp [sameOpcode]
    have ha := args_same_refl cp b i (h (b, i) (List.mem_cons_self _ _))
    rw [if_pos (by simp [hs, ha])]
    exact emcpLoop_refl cp t (fun p hp => h p (List.mem_cons_of_mem _ hp))

/-- C6: reflexivity of the exact comparison.  `methods_EMCP M M'` is true for
a structurally identical copy M' of M (modelled as the very same value, the
constant pool resolving every operand index identically), for every body
whose `ldc` operands carry legal (one-word) constant tags. -/
theorem c6_emcp_reflexivity (M : Method)
    (h : ∀ p ∈ M.code, ldcReflOk M.cp p.2 = true) :
    methods_EMCP M M = true := by
  unfold methods_EMCP
  rw [if_neg (by simp), if_neg (by simp [check_stack_and_locals_size])]
  exact emcpLoop_refl M.cp M.code h

/-- C6 witness: a body exercising ldc, a member reference, a backward branch,
iinc, a local load and a plain opcode is EMCP with itself. -/
theorem c6_witness :
    (∀ p ∈ methodRich.code, ldcReflOk methodRich.cp p.2 = true) ∧
    methods_EMCP methodRich methodRich = true :=
  ⟨by decide, c6_emcp_reflexivity methodRich (by decide)⟩

/-- C7: `methods_switchable` returns false (with no fragment recorded)
whenever the new body's code length is strictly smaller than the old one,
from the first precondition of the function. -/
theorem c7_length_monotonicity (oldM newM : Method)
    (h : newM.code_size < oldM.code_size) :
    methods_switchable oldM newM = (false, []) := by
  unfold methods_switchable
  rw [if_pos h]

/-- C7 witness at A = [iconst_1, ireturn] against the one-byte body
[ireturn]. -/
theorem c7_witness :
    methodShort.code_size < methodA.code_size ∧
    methods_switchable methodA methodShort = (false, []) :=
  ⟨by decide, c7_length_monotonicity methodA methodShort (by decide)⟩

/-- C8: the ldc literal cases.  When both operands are integer entries the
comparison is exactly equality of the integer values; when the old operand is
an unresolved string entry and the new one a resolved string entry with the
same character content, the comparison succeeds. -/
theorem c8_ldc_literal_cases (sw : Bool) (cpO cpN : CPool) (bm : List Frag)
    (bo bn ci cj : Nat) :
    (cpO.tag_at ci = .tInt → cpN.tag_at cj = .tInt →
      args_same sw cpO cpN bm bo bn (.ldc ci) (.ldc cj)
        = ((cpO.int_at ci == cpN.int_at cj), [])) ∧
    (cpO.tag_at ci = .tUnresolvedString → cpN.tag_at cj = .tString →
      cpO.string_at_noresolve ci = cpN.string_at_noresolve cj →
      args_same sw cpO cpN bm bo bn (.ldc ci) (.ldc cj) = (true, [])) := by
  constructor
  · intro h1 h2
    simp [args_same, ldcSame, h1, h2, CTag.is_int, CTag.is_float, CTag.value]
  · intro h1 h2 h3
    simp [args_same, ldcSame, h1, h2, h3, CTag.is_int, CTag.is_float,
      CTag.is_string, CTag.is_unresolved_string]

/-- C8 witness: int 5 vs int 6 compares by value (hence not equivalent), and
unresolved "x" vs resolved "x" is equivalent. -/
theorem c8_witness :
    args_same false cp8a cp8b [] 0 0 (.ldc 1) (.ldc 1)
      = ((cp8a.int_at 1 == cp8b.int_at 1), []) ∧
    (args_same false cp8a cp8b [] 0 0 (.ldc 1) (.ldc 1)).1 = false ∧
    args_same false cp8a cp8b [] 0 0 (.ldc 2) (.ldc 2) = (true, []) :=
  ⟨(c8_ldc_literal_cases false cp8a cp8b [] 0 0 1 1).1 (by decide) (by decide),
   by decide,
   (c8_ldc_literal_cases false cp8a cp8b [] 0 0 2 2).2 (by decide) (by decide) rfl⟩

/-- Helper: a successful resynchronization search returns a bci drawn from
the searched stream together with the remainder after it, so the match bci
inherits any lower bound on the stream and strictly bounds the remainder. -/
theorem resyncLoop_spec (cpO cpN : CPool) (bm : List Frag) (bo : Nat)
    (io : Instr) :
    ∀ (l : List (Nat × Instr)) (fwd : List (Int × Int)) (bn2 : Nat)
      (tn2 : List (Nat × Instr)) (fwd2 : List (Int × Int)),
      l.Pairwise (fun a b => a.1 < b.1) →
      resyncLoop cpO cpN bm bo io l fwd = (some (bn2, tn2), fwd2) →
      tn2.Pairwise (fun a b => a.1 < b.1) ∧ (∀ p ∈ tn2, bn2 < p.1) ∧
        (∀ p ∈ tn2, p ∈ l) ∧ ∃ q ∈ l, q.1 = bn2
  | [], fwd, bn2, tn2, fwd2, _, hres => by simp [resyncLoop] at hres
  | (bn, iN) :: tn, fwd, bn2, tn2, fwd2, hmono, hres => by
    rw [List.pairwise_cons] at hmono
    obtain ⟨hhead, htail⟩ := hmono
    rw [resyncLoop] at hres
    by_cases hop : sameOpcode io iN = true
    · rw [if_pos hop] at hres
      by_cases hok : (args_same true cpO cpN bm bo bn io iN).1 = true
      · rw [if_pos hok] at hres
        simp only [Prod.mk.injEq, Option.some.injEq] at hres
        obtain ⟨⟨hb, ht⟩, _⟩ := hres
        subst hb; subst ht
        exact ⟨htail, fun p hp => hhead p hp,
          fun p hp => List.mem_cons_of_mem _ hp,
          ⟨(bn, iN), List.mem_cons_self _ _, rfl⟩⟩
      · rw [if_neg hok] at hres
        obtain ⟨h1, h2, h3, q, hq, he⟩ :=
          resyncLoop_spec cpO cpN bm bo io tn _ bn2 tn2 fwd2 htail hres
        exact ⟨h1, h2, fun p hp => List.mem_cons_of_mem _ (h3 p hp),
          ⟨q, List.mem_cons_of_mem _ hq, he⟩⟩
    · rw [if_neg hop] at hres
      obtain ⟨h1, h2, h3, q, hq, he⟩ :=
        resyncLoop_spec cpO cpN bm bo io tn _ bn2 tn2 fwd2 htail hres
      exact ⟨h1, h2, fun p hp => List.mem_cons_of_mem _ (h3 p hp),
        ⟨q, List.mem_cons_of_mem _ hq, he⟩⟩

/-- Helper: the switchable scan preserves well-formedness of the accumulated
fragment list, given that the fragments recorded so far lie strictly before
the unscanned old stream and weakly before the unscanned new stream. -/
theorem scanLoop_wf (cpO cpN : CPool) (oldL : List (Nat × Instr)) :
    ∀ (newL : List (Nat × Instr)) (bm : List Frag) (fwd : List (Int × Int)),
      oldL.Pairwise (fun a b => a.1 < b.1) →
      newL.Pairwise (fun a b => a.1 < b.1) →
      FragsWF bm →
      (∀ f ∈ bm, ∀ p ∈ oldL, f.oldBci < p.1) →
      (∀ f ∈ bm, ∀ p ∈ newL, f.newEndBci ≤ p.1) →
      FragsWF (scanLoop cpO cpN oldL newL bm fwd).2.1 := by
  induction oldL with
  | nil =>
    intro newL bm fwd _ _ hbm _ _
    rw [scanLoop]
    exact hbm
  | cons po tlO ih =>
    obtain ⟨bo, io⟩ := po
    intro newL bm fwd hOmono hNmono hbm hOb hNb
    cases newL with
    | nil =>
      rw [scanLoop]
      exact hbm
    | cons pn tn =>
      obtain ⟨bn, iN⟩ := pn
      rw [List.pairwise_cons] at hOmono hNmono
      obtain ⟨hOhead, hOtail⟩ := hOmono
      obtain ⟨hNhead, hNtail⟩ := hNmono
      rw [scanLoop]
      by_cases hr : (scanStep cpO cpN bm bo bn io iN).1 = true
      · rw [if_pos hr]
        exact ih tn bm _ hOtail hNtail hbm
          (fun f hf p hp => hOb f hf p (List.mem_cons_of_mem _ hp))
          (fun f hf p hp => hNb f hf p (List.mem_cons_of_mem _ hp))
      · rw [if_neg hr]
        rcases hres : resyncLoop cpO cpN bm bo io tn
            (fwd ++ (scanStep cpO cpN bm bo bn io iN).2) with ⟨found, fwd2⟩
        cases found with
        | none => exact hbm
        | some pr =>
          obtain ⟨bn2, tn2⟩ := pr
          obtain ⟨hm2, hb2, hsub2, q, hq, hqe⟩ :=
            resyncLoop_spec cpO cpN bm bo io tn _ bn2 tn2 fwd2 hNtail hres
          have hbn2 : bn < bn2 := hqe ▸ hNhead q hq
          have hwf2 : FragsWF (bm ++ [⟨bo, bn, bn2⟩]) := by
            constructor
            · intro f hf
              rcases List.mem_append.mp hf with hfl | hfr
              · exact hbm.1 f hfl
              · rw [List.mem_singleton] at hfr
                subst hfr
                exact hbn2
            · refine List.pairwise_append.mpr
                ⟨hbm.2, List.pairwise_singleton _ _, ?_⟩
              intro f hf g hg
              rw [List.mem_singleton] at hg
              subst hg
              exact ⟨hOb f hf (bo, io) (List.mem_cons_self _ _),
                hNb f hf (bn, iN) (List.mem_cons_self _ _)⟩
          refine ih tn2 (bm ++ [⟨bo, bn, bn2⟩]) fwd2 hOtail hm2 hwf2 ?_ ?_
          · intro f hf p hp
            rcases List.mem_append.mp hf with hfl | hfr
            · exact hOb f hfl p (List.mem_cons_of_mem _ hp)
            · rw [List.mem_singleton] at hfr
              subst hfr
              exact hOhead p hp
          · intro f hf p hp
            rcases List.mem_append.mp hf with hfl | hfr
            · exact hNb f hfl p (List.mem_cons_of_mem _ (hsub2 p hp))
            · rw [List.mem_singleton] at hfr
              subst hfr
              exact le_of_lt (hb2 p hp)

/-- C9: in any single run of `methods_switchable` (over streams with strictly
increasing bcis, the shape every decoded method body has), every fragment in
the returned map satisfies new_end_bci > new_start_bci, the old divergence
bcis are strictly increasing across the list, and the [new_start, new_end)
spans are pairwise disjoint and increasing in the new stream. -/
theorem c9_fragment_invariant (oldM newM : Method)
    (h1 : BciMono oldM.code) (h2 : BciMono newM.code) :
    FragsWF (methods_switchable oldM newM).2 := by
  have hnil : FragsWF ([] : List Frag) :=
    ⟨fun f hf => absurd hf (List.not_mem_nil f), List.Pairwise.nil⟩
  unfold methods_switchable
  by_cases hlen : oldM.code_size > newM.code_size
  · rw [if_pos hlen]
    exact hnil
  · rw [if_neg hlen]
    by_cases hchk : (check_stack_and_locals_size oldM newM == 0) = true
    · rw [if_pos hchk]
      exact hnil
    · rw [if_neg hchk]
      have h := scanLoop_wf oldM.cp newM.cp oldM.code newM.code [] [] h1 h2
        hnil (fun f hf => absurd hf (List.not_mem_nil f))
        (fun f hf => absurd hf (List.not_mem_nil f))
      rcases hscan : scanLoop oldM.cp newM.cp oldM.code newM.code [] []
        with ⟨ok, bm, fwd⟩
      rw [hscan] at h
      cases ok
      · exact h
      · exact h

/-- C9 witness: a run that actually records a fragment (old [iconst_1,
ireturn] against new [iconst_1, nop, ireturn] with differing max_stack so the
inverted precondition lets the scan run, see C1). -/
theorem c9_witness :
    BciMono methodA.code ∧ BciMono methodB1Stack2.code ∧
    (methods_switchable methodA methodB1Stack2).2 = [⟨1, 1, 2⟩] ∧
    FragsWF (methods_switchable methodA methodB1Stack2).2 :=
  ⟨by decide, by decide, by decide,
    c9_fragment_invariant methodA methodB1Stack2 (by decide) (by decide)⟩

/-- C10: trailing insertion at the end of the new body is silently accepted.
For the old body [iconst_1, ireturn] and a new body that extends it with ANY
trailing instruction list, `methods_switchable` returns true with an empty
map, uniformly in the trailing list: the scan stops when the old stream is
exhausted, so the trailing instructions are never examined, compared, or
recorded as a fragment.  (The pair's max_stack values differ so that the
inverted frame-layout precondition, see C1, lets the scan run.) -/
theorem c10_trailing_insertion (junk : List (Nat × Instr)) (cs : Nat)
    (h : methodA.code_size ≤ cs) :
    methods_switchable methodA (trailingNew cs junk) = (true, []) := by
  unfold methods_switchable
  rw [if_neg (by
    have h2 : methodA.code_size = 2 := rfl
    have h3 : (trailingNew cs junk).code_size = cs := rfl
    omega)]
  rfl

/-- C10 witness: a concrete trailing nop beyond the matched region. -/
theorem c10_witness :
    methodA.code_size ≤ 5 ∧
    methods_switchable methodA (trailingNew 5 [(2, .other 0)]) = (true, []) :=
  ⟨by decide, c10_trailing_insertion [(2, .other 0)] 5 (by decide)⟩

end MethodComparator
